import Mathlib

/-!
Shallow embedding of the search-and-retrieval core of the
mcp-klipper-docs server: the SearchEngine class (src/search.ts), the
error helpers (src/errors.ts), the configuration defaults
(src/config.ts) and the configuration-section extractor
(extractConfigSection in the server source).  Text is modelled as
`List Char` / `String`, JavaScript Maps as insertion-ordered
association lists, machine numbers as `Nat` / `Int`, and relevance
scores as rationals.  The lunr.js library itself is not part of the
repository; its tokenizer, index and result list are modelled from the
specification (sections 4.1 and 4.2) and are marked as such below.
-/

deriving instance DecidableEq for Except

namespace Klipper

/-- The `ErrorType` enum from src/types.ts. -/
inductive ErrorType where
  | VALIDATION
  | PARSING
  | SEARCH
  | GIT
  | NETWORK
  | SYSTEM
  | NOT_FOUND
  deriving DecidableEq, Repr

/-- The `KlipperError` class from src/errors.ts: message, error type,
context, and the optional `details` record (modelled as a list of
key/value pairs, empty when absent; the timestamp field is not
modelled). -/
structure KlipperError where
  message : String
  etype : ErrorType
  context : String
  details : List (String × String)
  deriving DecidableEq, Repr

/-- `new SearchError(message, context)` from src/errors.ts: a
`KlipperError` with type `SEARCH`. -/
def SearchError (message context : String) : KlipperError :=
  ⟨message, ErrorType.SEARCH, context, []⟩

/-- A JavaScript exception value as it reaches `handleError`: either an
instance of `KlipperError`, an ordinary `Error` (name and message), or
any other thrown value (its string form). -/
inductive JsError where
  | klipper (e : KlipperError)
  | jsError (name message : String)
  | other (text : String)
  deriving DecidableEq, Repr

/-- The message of the triggering cause of a thrown value. -/
def JsError.causeMessage : JsError → String
  | .klipper e => e.message
  | .jsError _ message => message
  | .other text => text

/-- `handleError(error, context)` from src/errors.ts lines 82-96:
`KlipperError`s are returned unchanged; `Error`s are wrapped as
`SYSTEM` errors keeping the message and recording the original error
name in `details`; other values are stringified and wrapped. -/
def handleError (error : JsError) (context : String) : KlipperError :=
  match error with
  | .klipper e => e
  | .jsError name message =>
      ⟨message, ErrorType.SYSTEM, context, [("originalError", name)]⟩
  | .other text => ⟨text, ErrorType.SYSTEM, context, []⟩

/-- The fields of `DocumentMetadata` (src/types.ts) that the search core
reads: `wordCount` (used by `getStats`) and `tags` (used by
`buildIndex`). -/
structure DocumentMetadata where
  wordCount : Nat
  tags : List String
  deriving DecidableEq, Repr

/-- `ParsedDocument` (src/types.ts), restricted to the fields the search
core reads.  The TypeScript field `section` is a Lean keyword and is
embedded as `sectionName`. -/
structure ParsedDocument where
  id : String
  title : String
  content : String
  sectionName : String
  metadata : DocumentMetadata
  deriving DecidableEq, Repr

/-- `DEFAULT_CONFIG.search.maxResults` from src/config.ts line 125. -/
def maxResults : Nat := 10

/-- `DEFAULT_CONFIG.search.snippetLength` from src/config.ts line 126. -/
def snippetLength : Nat := 200

/-- `DEFAULT_CONFIG.search.minScore` from src/config.ts line 127: the
value 0.1, kept as the exact fraction `minScoreNum / minScoreDen`. -/
def minScoreNum : Nat := 1

/-- Denominator of the exact fraction for `minScore = 0.1`. -/
def minScoreDen : Nat := 10

/-- `result.score >= config.search.minScore` (src/search.ts line 80)
for the integer-valued modelled score:
`score ≥ minScoreNum / minScoreDen  ↔  minScoreDen · score ≥ minScoreNum`. -/
def passesMinScore (score : Nat) : Bool := minScoreNum ≤ minScoreDen * score

/-- Recursive worker for `tokenize`: accumulate alphanumeric runs,
case-folded, dropping separator characters. -/
def tokenizeChars : List Char → List Char → List (List Char)
  | [], acc => if acc = [] then [] else [acc.reverse]
  | c :: rest, acc =>
      if c.isAlphanum then tokenizeChars rest (c.toLower :: acc)
      else if acc = [] then tokenizeChars rest acc
      else acc.reverse :: tokenizeChars rest []

/-- Modelled from the spec: the lunr.js tokenizer is not part of this
repository; section 4.1 requires whitespace/punctuation-based word
splitting with case folding, deterministic and identical at build time
and query time (stemming is an implementation choice and is modelled as
the identity). -/
def tokenize (s : String) : List String :=
  (tokenizeChars s.data []).map (fun t => String.mk t)

/-- Modelled from the spec: one document as held by the lunr index — the
token lists of its four fields, keyed by `ref = id`. -/
structure IndexedDoc where
  ref : String
  titleToks : List String
  contentToks : List String
  sectionToks : List String
  tagToks : List String
  deriving DecidableEq, Repr

/-- The `this.add(\x7b id, title, content, section, tags:
doc.metadata.tags.join(' ') \x7d)` call in `buildIndex` (src/search.ts
lines 38-46): the four indexed fields of one document, the tags field
being the space-joined tag list. -/
def indexDoc (d : ParsedDocument) : IndexedDoc :=
  ⟨d.id, tokenize d.title, tokenize d.content, tokenize d.sectionName,
    tokenize (String.intercalate " " d.metadata.tags)⟩

/-- Modelled from the spec: the index produced by the `lunr(...)` call
in `buildIndex` — every document of the snapshot, in insertion order. -/
def lunrBuild (docs : List ParsedDocument) : List IndexedDoc :=
  docs.map indexDoc

/-- Modelled from the spec (sections 4.2 and 9): per-term weighted
score of one document — term frequency per field times the configured
field boost (title 10, section 5, tags 3, body 1, the boosts set in
src/search.ts lines 29-32).  The underlying library's exact
floating-point formula is not part of this repository; the spec makes
only the 10:5:3:1 ratios and monotonicity in term frequency binding,
so the score is modelled as the weighted term-frequency sum, a natural
number. -/
def termScore (d : IndexedDoc) (t : String) : Nat :=
  10 * (d.titleToks.count t) + 5 * (d.sectionToks.count t) +
    3 * (d.tagToks.count t) + (d.contentToks.count t)

/-- Modelled from the spec (section 4.2): the relevance score of one
document for a query — the sum of the weighted per-term scores over the
distinct query tokens (monotonic in term frequency). -/
def docScore (d : IndexedDoc) (query : String) : Nat :=
  ((tokenize query).dedup.map (termScore d)).sum

/-- One entry of the lunr result list: document reference, score, and
the matched terms (the keys of `matchData.metadata`). -/
structure LunrResult where
  ref : String
  score : Nat
  matchTerms : List String
  deriving DecidableEq, Repr

/-- The result-list entry of one indexed document for a query; its
matched terms are the distinct query tokens scoring positively. -/
def lunrEntry (d : IndexedDoc) (query : String) : LunrResult :=
  ⟨d.ref, docScore d query,
    (tokenize query).dedup.filter (fun t => decide (0 < termScore d t))⟩

/-- Result-list ordering: descending score.  The sort below is stable,
preserving index-assigned order on ties (spec section 4.2 step 5). -/
def scoreGe (a b : LunrResult) : Prop := b.score ≤ a.score

instance : DecidableRel scoreGe :=
  fun a b => inferInstanceAs (Decidable (b.score ≤ a.score))

instance : IsTotal LunrResult scoreGe :=
  ⟨fun a b => le_total b.score a.score⟩

instance : IsTrans LunrResult scoreGe :=
  ⟨fun _ _ _ h1 h2 => le_trans h2 h1⟩

/-- Modelled from the spec: `this.index.search(query)` — every indexed
document with a positive score, sorted by descending score, stable in
index-assigned order.  Any input string is tokenizable; no query is
rejected (spec section 7). -/
def lunrSearch (idx : List IndexedDoc) (query : String) : List LunrResult :=
  List.insertionSort scoreGe
    ((idx.map (fun d => lunrEntry d query)).filter (fun r => decide (0 < r.score)))

/-- The mutable state of the `SearchEngine` class (src/search.ts lines
12-15): the optional lunr index handle, the document store (a JS `Map`,
modelled as an insertion-ordered association list), and the optional
last-build timestamp. -/
structure SearchEngine where
  index : Option (List IndexedDoc)
  docs : List (String × ParsedDocument)
  lastIndexed : Option Nat
  deriving DecidableEq, Repr

/-- `new SearchEngine()`: no index, empty store, never indexed. -/
def SearchEngine.mkNew : SearchEngine := ⟨none, [], none⟩

/-- `this.docs.get(key)`: JS `Map` lookup. -/
def docsGet (docs : List (String × ParsedDocument)) (key : String) :
    Option ParsedDocument :=
  match docs with
  | [] => none
  | (k, d) :: rest => if k = key then some d else docsGet rest key

/-- `buildIndex(documents)` (src/search.ts lines 17-55). `this.docs` is
assigned before the `try` block (line 21); the lunr construction inside
the `try` may raise an internal fault, modelled by the `fault`
parameter (`none` means the construction succeeds).  On fault the error
is passed through `handleError` and rethrown, and the previous `index`
and `lastIndexed` are left untouched; on success the new index and the
build timestamp `now` are stored. -/
def buildIndex (e : SearchEngine) (documents : List (String × ParsedDocument))
    (now : Nat) (fault : Option JsError) :
    SearchEngine × Except KlipperError Unit :=
  let e1 : SearchEngine := { e with docs := documents }
  match fault with
  | some err => (e1, Except.error (handleError err "SearchEngine.buildIndex"))
  | none =>
      ({ e1 with index := some (lunrBuild (documents.map Prod.snd)),
                 lastIndexed := some now }, Except.ok ())

/-- `SearchOptions` (src/types.ts); the TypeScript field `section` is a
Lean keyword and is embedded as `sectionFilter`; `limit` is a JS number
(integer-valued). -/
structure SearchOptions where
  limit : Option Int
  sectionFilter : Option String
  deriving DecidableEq, Repr

/-- `options.limit || config.search.maxResults` (src/search.ts line
63): JS `||` falls back on falsy values, so an absent limit and a limit
of `0` both yield the configured default. -/
def effectiveLimit (limit : Option Int) : Int :=
  match limit with
  | some n => if n = 0 then (maxResults : Int) else n
  | none => (maxResults : Int)

/-- JS `array.slice(0, n)` for an integer `n`: a negative `n` counts
back from the end of the array. -/
def jsSliceTo {α : Type} (l : List α) (n : Int) : List α :=
  if 0 ≤ n then l.take n.toNat
  else l.take (l.length - n.natAbs)

/-- The section filter of `search` (src/search.ts lines 72-77): keep
results whose document's section equals `options.section`; skipped when
`options.section` is absent or the empty string, both falsy in JS. -/
def sectionFiltered (e : SearchEngine) (results0 : List LunrResult)
    (opts : SearchOptions) : List LunrResult :=
  match opts.sectionFilter with
  | some s =>
      if s = "" then results0
      else results0.filter (fun r =>
        match docsGet e.docs r.ref with
        | some d => d.sectionName == s
        | none => false)
  | none => results0

/-- The pre-truncation pipeline of `search`: the lunr result list, the
section filter, and the minimum-score filter (line 80). -/
def filteredResults (e : SearchEngine) (idx : List IndexedDoc) (query : String)
    (opts : SearchOptions) : List LunrResult :=
  (sectionFiltered e (lunrSearch idx query) opts).filter
    (fun r => passesMinScore r.score)

/-- `SearchMetadata` (src/types.ts): query, elapsed time, total result
count, active section filter. -/
structure SearchMetadata where
  query : String
  searchTime : Nat
  totalResults : Nat
  filters : Option String
  deriving DecidableEq, Repr

/-- `SearchResult` (src/types.ts). -/
structure SearchResult where
  document : ParsedDocument
  score : Nat
  snippet : String
  highlights : List String
  metadata : SearchMetadata
  deriving DecidableEq, Repr

/-- Character-list prefix test. -/
def listIsPfx : List Char → List Char → Bool
  | [], _ => true
  | _ :: _, [] => false
  | a :: as, b :: bs => a == b && listIsPfx as bs

/-- JS `haystack.includes(needle)`: contiguous-substring test; the empty
needle is contained in everything. -/
def strIncludes : List Char → List Char → Bool
  | [], needle => needle.isEmpty
  | c :: rest, needle => listIsPfx needle (c :: rest) || strIncludes rest needle

/-- A JS whitespace character (the ASCII part of the `\s` class; the
texts this server handles are ASCII markdown). -/
def charWs (c : Char) : Bool :=
  c == ' ' || c == '\t' || c == '\n' || c == '\r' || c == '\x0b' || c == '\x0c'

mutual

/-- JS `s.split(/\s+/)`, accumulator part: a leading whitespace run
produces a leading empty piece; the empty string yields one empty
piece. -/
def splitWsAux : List Char → List Char → List (List Char)
  | [], acc => [acc.reverse]
  | c :: rest, acc =>
      if charWs c then acc.reverse :: splitWsRun rest
      else splitWsAux rest (c :: acc)

/-- JS `s.split(/\s+/)`, separator-run part: skip the rest of a
whitespace run; a trailing run produces a trailing empty piece. -/
def splitWsRun : List Char → List (List Char)
  | [] => [[]]
  | c :: rest => if charWs c then splitWsRun rest else splitWsAux rest [c]

end

/-- Lowercase a character list (JS `toLowerCase`, ASCII part). -/
def toLowerStr (s : List Char) : List Char := s.map Char.toLower

/-- `query.toLowerCase().split(/\s+/)` as computed at src/search.ts
lines 117 and 161. -/
def queryTermsOf (query : String) : List (List Char) :=
  splitWsAux (toLowerStr query.data) []

/-- The score of one candidate window in `generateSnippet`
(src/search.ts lines 124-131): one point for each (not necessarily
distinct) query term contained in the window. -/
def windowScore (lowerContent : List Char) (queryTerms : List (List Char))
    (i : Nat) : Nat :=
  (queryTerms.filter
    (fun t => strIncludes ((lowerContent.drop i).take snippetLength) t)).length

/-- The scan loop of `generateSnippet` (src/search.ts lines 121-136):
candidate start positions 0, 50, 100, ... strictly below
`length - snippetLength`; a strictly greater score wins, so the
earliest best position is kept. -/
def bestWindow (lowerContent : List Char) (queryTerms : List (List Char)) : Nat :=
  let bound := lowerContent.length - snippetLength
  let cand := (List.range ((bound + 49) / 50)).map (fun k => k * 50)
  (cand.foldl (fun best i =>
      let s := windowScore lowerContent queryTerms i
      if best.1 < s then (s, i) else best) ((0 : Nat), (0 : Nat))).2

/-- JS `s.indexOf(' ')` (`none` for -1). -/
def idxOfSpace (s : List Char) : Option Nat := s.findIdx? (fun c => c == ' ')

/-- JS `s.lastIndexOf(' ')` (`none` for -1). -/
def lastIdxOfSpace (s : List Char) : Option Nat :=
  match s.reverse.findIdx? (fun c => c == ' ') with
  | some k => some (s.length - 1 - k)
  | none => none

/-- JS `s.trim()` (ASCII whitespace). -/
def jsTrim (s : List Char) : List Char :=
  ((s.dropWhile charWs).reverse.dropWhile charWs).reverse

/-- `generateSnippet(content, query)` (src/search.ts lines 115-157):
pick the best window, then clean up the leading boundary (an ellipsis
replacing the first partial word when the window does not start the
document and a space occurs before position 20) and the trailing
boundary (an ellipsis after the last space when it falls after position
`snippetLength - 20` and the window does not reach the end), then
trim. -/
def generateSnippet (content query : String) : String :=
  let contentL := content.data
  let lowerContent := toLowerStr contentL
  let queryTerms := queryTermsOf query
  let bestPosition := bestWindow lowerContent queryTerms
  let snippet0 := (contentL.drop bestPosition).take snippetLength
  let snippet1 :=
    if 0 < bestPosition then
      match idxOfSpace snippet0 with
      | some firstSpace =>
          if 0 < firstSpace ∧ firstSpace < 20 then
            "...".data ++ snippet0.drop (firstSpace + 1)
          else snippet0
      | none => snippet0
    else snippet0
  let snippet2 :=
    if bestPosition + snippetLength < contentL.length then
      match lastIdxOfSpace snippet1 with
      | some lastSpace =>
          if snippetLength - 20 < lastSpace then
            snippet1.take lastSpace ++ "...".data
          else snippet1
      | none => snippet1
    else snippet1
  String.mk (jsTrim snippet2)

/-- `extractHighlights(result, query)` (src/search.ts lines 159-173):
the matched terms of the result that overlap some query term by
substring containment in either direction. -/
def extractHighlights (r : LunrResult) (query : String) : List String :=
  let queryTerms := queryTermsOf query
  r.matchTerms.filter (fun term =>
    queryTerms.any (fun qt =>
      strIncludes term.data qt || strIncludes qt term.data))

/-- The result-construction map of `search` (src/search.ts lines
86-104): each surviving lunr result is resolved against the document
store — a missing document raises a `SearchError` (line 89);
`totalResults` is the length `total` of the already-truncated result
array (line 100) and `searchTime` is modelled as 0. -/
def buildResults (docs : List (String × ParsedDocument)) (query : String)
    (filters : Option String) (total : Nat) :
    List LunrResult → Except KlipperError (List SearchResult)
  | [] => Except.ok []
  | r :: rest =>
      match docsGet docs r.ref with
      | none => Except.error
          (SearchError ("Document not found: " ++ r.ref) "SearchEngine.search")
      | some doc =>
          match buildResults docs query filters total rest with
          | Except.error e => Except.error e
          | Except.ok tail =>
              Except.ok (⟨doc, r.score, generateSnippet doc.content query,
                extractHighlights r query,
                ⟨query, 0, total, filters⟩⟩ :: tail)

/-- `search(query, options)` (src/search.ts lines 57-113): a missing
index raises the not-initialized `SearchError` (lines 58-60); otherwise
filter, truncate to the effective limit, and build the result records.
A `KlipperError` thrown inside the `try` is returned unchanged by
`handleError`, so it propagates as-is. -/
def search (e : SearchEngine) (query : String) (opts : SearchOptions) :
    Except KlipperError (List SearchResult) :=
  match e.index with
  | none => Except.error (SearchError "Search index not initialized" "SearchEngine.search")
  | some idx =>
      let limit := effectiveLimit opts.limit
      let results2 := filteredResults e idx query opts
      let results3 := jsSliceTo results2 limit
      let filters : Option String :=
        match opts.sectionFilter with
        | some s => if s = "" then none else some s
        | none => none
      buildResults e.docs query filters results3.length results3

/-- `getDocument(id)` (src/search.ts line 175). -/
def getDocument (e : SearchEngine) (id : String) : Option ParsedDocument :=
  docsGet e.docs id

/-- `getAllDocuments()` (src/search.ts line 179): the store's values in
insertion order. -/
def getAllDocuments (e : SearchEngine) : List ParsedDocument :=
  e.docs.map Prod.snd

/-- `getDocumentsBySection(section)` (src/search.ts line 183). -/
def getDocumentsBySection (e : SearchEngine) (s : String) : List ParsedDocument :=
  (getAllDocuments e).filter (fun d => d.sectionName == s)

/-- Lexicographic code-unit comparison on character lists — the order
used by the JS default `Array.prototype.sort` on strings. -/
def charListLe : List Char → List Char → Bool
  | [], _ => true
  | _ :: _, [] => false
  | a :: as, b :: bs =>
      if a < b then true else if b < a then false else charListLe as bs

/-- The JS default string order, on `String`. -/
def strLe (a b : String) : Prop := charListLe a.data b.data = true

instance : DecidableRel strLe :=
  fun a b => inferInstanceAs (Decidable (charListLe a.data b.data = true))

/-- `charListLe` is total. -/
theorem charListLe_total : ∀ a b : List Char,
    charListLe a b = true ∨ charListLe b a = true
  | [], _ => Or.inl rfl
  | _ :: _, [] => Or.inr rfl
  | a :: as, b :: bs => by
      rcases lt_trichotomy a b with h | h | h
      · left; simp [charListLe, h]
      · subst h
        rcases charListLe_total as bs with ih | ih
        · left; simp [charListLe, ih]
        · right; simp [charListLe, ih]
      · right; simp [charListLe, h]

/-- `charListLe` is transitive. -/
theorem charListLe_trans : ∀ a b c : List Char,
    charListLe a b = true → charListLe b c = true → charListLe a c = true
  | [], _, _, _, _ => rfl
  | _ :: _, [], _, h, _ => by simp [charListLe] at h
  | _ :: _, _ :: _, [], _, h => by simp [charListLe] at h
  | a :: as, b :: bs, c :: cs, h1, h2 => by
      simp only [charListLe] at h1 h2 ⊢
      by_cases hab : a < b
      · by_cases hbc : b < c
        · simp [lt_trans hab hbc]
        · by_cases hcb : c < b
          · simp [hbc, hcb] at h2
          · have hbc2 : b = c := le_antisymm (not_lt.mp hcb) (not_lt.mp hbc)
            subst hbc2
            simp [hab]
      · by_cases hba : b < a
        · simp [hab, hba] at h1
        · have hab2 : a = b := le_antisymm (not_lt.mp hba) (not_lt.mp hab)
          subst hab2
          by_cases hac : a < c
          · simp [hac]
          · by_cases hca : c < a
            · simp [hac, hca] at h2
            · have hac2 : a = c := le_antisymm (not_lt.mp hca) (not_lt.mp hac)
              subst hac2
              simp only [lt_irrefl, if_false] at h1 h2 ⊢
              exact charListLe_trans as bs cs h1 h2

instance : IsTotal String strLe :=
  ⟨fun a b => charListLe_total a.data b.data⟩

instance : IsTrans String strLe :=
  ⟨fun a b c => charListLe_trans a.data b.data c.data⟩

/-- `getSections()` (src/search.ts lines 187-191): the distinct section
names (a JS `Set` keeps first-insertion order, as does `dedup`), sorted
ascending by the default JS string comparison. -/
def getSections (e : SearchEngine) : List String :=
  List.insertionSort strLe
    (((getAllDocuments e).map (fun d => d.sectionName)).dedup)

/-- `IndexStats` (src/types.ts). -/
structure IndexStats where
  totalDocuments : Nat
  totalWords : Nat
  lastIndexed : Nat
  sections : List String
  deriving DecidableEq, Repr

/-- `getStats()` (src/search.ts lines 193-203); the `new Date()`
fallback used when the index was never built is modelled by the current
time `now`. -/
def getStats (e : SearchEngine) (now : Nat) : IndexStats :=
  let docs := getAllDocuments e
  let totalWords := docs.foldl (fun sum d => sum + d.metadata.wordCount) 0
  ⟨docs.length, totalWords, e.lastIndexed.getD now, getSections e⟩

/-- `isReady()` (src/search.ts lines 205-207). -/
def isReady (e : SearchEngine) : Bool := e.index.isSome

/-- JS `str.replace(/a/g, b)` for single characters. -/
def replaceAll (s : List Char) (a b : Char) : List Char :=
  s.map (fun c => if c = a then b else c)

/-- The option-name variants tried by `extractConfigSection` (server
source lines 584-588): as given, underscores to spaces, hyphens to
underscores. -/
def optionVariants (opt : List Char) : List (List Char) :=
  [opt, replaceAll opt '_' ' ', replaceAll opt '-' '_']

/-- Case-insensitive literal match of `v` against a prefix of `cs`
(the escaped variant under the `i` regex flag); returns the consumed
source text and the remainder. -/
def matchCI : List Char → List Char → Option (List Char × List Char)
  | [], cs => some ([], cs)
  | _ :: _, [] => none
  | v :: vs, c :: cs =>
      if v.toLower = c.toLower then
        match matchCI vs cs with
        | some (consumed, rest) => some (c :: consumed, rest)
        | none => none
      else none

/-- Group 1 of pattern 1 of `extractConfigSection`, the regex
`###\s*\[variant[^\]]*\][^\n]*\n` (case-insensitive), matched at the
start of `cs`: literal `###`, a greedy whitespace run, the bracketed
label starting with the variant, the rest of the line, and the line's
newline.  Returns the header text and the remainder. -/
def headerMatchAt (variant : List Char) (cs : List Char) :
    Option (List Char × List Char) :=
  match cs with
  | '#' :: '#' :: '#' :: cs1 =>
      let ws := cs1.takeWhile charWs
      match cs1.dropWhile charWs with
      | '[' :: cs3 =>
          match matchCI variant cs3 with
          | some (vtext, cs4) =>
              let nb := cs4.takeWhile (fun c => c != ']')
              match cs4.dropWhile (fun c => c != ']') with
              | ']' :: cs6 =>
                  let nn := cs6.takeWhile (fun c => c != '\n')
                  match cs6.dropWhile (fun c => c != '\n') with
                  | '\n' :: cs8 =>
                      some ('#' :: '#' :: '#' ::
                        (ws ++ '[' :: (vtext ++ nb ++ ']' :: (nn ++ ['\n']))), cs8)
                  | _ => none
              | _ => none
          | none => none
      | _ => none
  | _ => none

/-- The pattern-1 lookahead `(?=\n###\s|\n##\s|$)`: a newline-led
heading marker of level three or two followed by whitespace, or the end
of the document. -/
def p1Stop (cs : List Char) : Bool :=
  match cs with
  | [] => true
  | '\n' :: '#' :: '#' :: rest =>
      match rest with
      | '#' :: c :: _ => charWs c
      | c :: _ => charWs c
      | [] => false
  | _ => false

/-- The lazy body `[\s\S]*?` of pattern 1: the shortest (possibly
empty) prefix after which the `p1Stop` lookahead holds. -/
def takeUntilP1 : List Char → List Char
  | [] => []
  | c :: cs => if p1Stop (c :: cs) then [] else c :: takeUntilP1 cs

/-- The leftmost match of pattern 1's header: `RegExp.exec` tries every
start position left to right. -/
def findHeader (variant : List Char) : List Char → Option (List Char × List Char)
  | [] => none
  | c :: cs =>
      match headerMatchAt variant (c :: cs) with
      | some r => some r
      | none => findHeader variant cs

/-- Pattern 1 of `extractConfigSection` (server source lines 591-603):
header capture plus lazy body; the JS truthiness test
`match && match[1] && match[2]` rejects an empty body string, and the
code then falls through to pattern 2 without retrying pattern 1
further right. -/
def tryPattern1 (variant : List Char) (content : List Char) : Option (List Char) :=
  match findHeader variant content with
  | none => none
  | some (header, rest) =>
      let body := takeUntilP1 rest
      if body = [] then none else some (header ++ body)

/-- Split a character list at its last newline:
`l = pre ++ newline :: post` with no newline in `post`. -/
def splitLastNl (l : List Char) : Option (List Char × List Char) :=
  match l.reverse.findIdx? (fun c => c == '\n') with
  | some k => some (l.take (l.length - 1 - k), l.drop (l.length - k))
  | none => none

/-- Group 1 of pattern 2, the regex head `\[variant[^\]]*\]\s*\n`
matched at the start of `cs`: after the closing bracket the greedy
`\s*` backtracks so that the final matched character is the last
newline of the whitespace run (no newline in the run means no match).
Returns the group text and the remainder. -/
def bracketMatchAt (variant : List Char) (cs : List Char) :
    Option (List Char × List Char) :=
  match cs with
  | '[' :: cs1 =>
      match matchCI variant cs1 with
      | some (vtext, cs2) =>
          let nb := cs2.takeWhile (fun c => c != ']')
          match cs2.dropWhile (fun c => c != ']') with
          | ']' :: cs4 =>
              let ws := cs4.takeWhile charWs
              match splitLastNl ws with
              | some (wsPre, wsPost) =>
                  some ('[' :: (vtext ++ nb ++ ']' :: (wsPre ++ ['\n'])),
                        wsPost ++ cs4.dropWhile charWs)
              | none => none
          | _ => none
      | none => none
  | _ => none

/-- The pattern-2 lookahead `(?=\n\[[a-z]|\n###|\n##|$)` (under the `i`
flag `[a-z]` matches both cases). -/
def p2Stop (cs : List Char) : Bool :=
  match cs with
  | [] => true
  | '\n' :: '[' :: c :: _ => c.isAlpha
  | '\n' :: '#' :: '#' :: _ => true
  | _ => false

/-- The lazy body of pattern 2: the shortest prefix after which the
`p2Stop` lookahead holds. -/
def takeUntilP2 : List Char → List Char
  | [] => []
  | c :: cs => if p2Stop (c :: cs) then [] else c :: takeUntilP2 cs

/-- The leftmost match of pattern 2: returns the text before the match
(`beforeContent`), the matched group-1 text, and the remainder. -/
def findBracket (variant : List Char) :
    List Char → Option (List Char × List Char × List Char)
  | [] => none
  | c :: cs =>
      match bracketMatchAt variant (c :: cs) with
      | some (g1, rest) => some ([], g1, rest)
      | none =>
          match findBracket variant cs with
          | some (pre, g1, rest) => some (c :: pre, g1, rest)
          | none => none

/-- One candidate of `beforeContent.match(/\n(###[^\n]+)\n[^#]*$/)`
(server source line 616), anchored at the start of `cs` and reaching
the end: a newline, a `###` line with a nonempty body, its newline, and
a hash-free tail. -/
def priorHeaderAt (cs : List Char) : Option (List Char) :=
  match cs with
  | '\n' :: '#' :: '#' :: '#' :: rest =>
      let a := rest.takeWhile (fun c => c != '\n')
      if a = [] then none
      else
        match rest.dropWhile (fun c => c != '\n') with
        | '\n' :: b =>
            if b.all (fun c => c != '#') then some ('#' :: '#' :: '#' :: a)
            else none
        | _ => none
  | _ => none

/-- The leftmost (and, because the tail must be hash-free, unique)
match of the backward header search of pattern 2. -/
def findPriorHeader : List Char → Option (List Char)
  | [] => none
  | c :: cs =>
      match priorHeaderAt (c :: cs) with
      | some h => some h
      | none => findPriorHeader cs

/-- Pattern 2 of `extractConfigSection` (server source lines 605-620):
bare bracketed label, lazy body, and the nearest enclosing `###` header
line prepended with a blank line when one is found. -/
def tryPattern2 (variant : List Char) (content : List Char) : Option (List Char) :=
  match findBracket variant content with
  | none => none
  | some (pre, g1, rest) =>
      let body := takeUntilP2 rest
      match findPriorHeader pre with
      | some h => some (h ++ '\n' :: '\n' :: (g1 ++ body))
      | none => some (g1 ++ body)

/-- Core of `extractConfigSection(content, option)` (server source
lines 582-624): for each option variant in order, try pattern 1 then
pattern 2; the first hit wins; `null` when no variant matches. -/
def extractCore (content : List Char) (opt : List Char) : Option (List Char) :=
  (optionVariants opt).foldl
    (fun acc v =>
      match acc with
      | some r => some r
      | none =>
          match tryPattern1 v content with
          | some r => some r
          | none => tryPattern2 v content)
    none

/-- `extractConfigSection` on strings. -/
def extractConfigSection (content opt : String) : Option String :=
  (extractCore content.data opt.data).map String.mk

/-! Concrete fixtures for the concrete instances below. -/

/-- A document whose title alone holds the token "extruder" and whose
body alone holds the token "rotation". -/
def docExtruder : ParsedDocument :=
  ⟨"d1", "Extruder Configuration", "rotation alpha", "config-reference", ⟨10, []⟩⟩

/-- A document whose title holds the token "alpha". -/
def docBedMesh : ParsedDocument :=
  ⟨"d2", "Bed Mesh alpha", "alpha things", "config-reference", ⟨20, []⟩⟩

/-- A document in another section whose body holds the token "alpha". -/
def docGcodes : ParsedDocument :=
  ⟨"d3", "Gcodes", "alpha", "g-codes", ⟨30, []⟩⟩

/-- A three-document store keyed by document identifier. -/
def sampleStore : List (String × ParsedDocument) :=
  [("d1", docExtruder), ("d2", docBedMesh), ("d3", docGcodes)]

/-- The engine after a successful `buildIndex` over `sampleStore`. -/
def sampleEngine : SearchEngine :=
  (buildIndex SearchEngine.mkNew sampleStore 5 none).1

/-- Three documents with word counts 10, 20, 30 and sections a, a, b. -/
def statsStore : List (String × ParsedDocument) :=
  [("s1", ⟨"s1", "T1", "c", "a", ⟨10, []⟩⟩),
   ("s2", ⟨"s2", "T2", "c", "a", ⟨20, []⟩⟩),
   ("s3", ⟨"s3", "T3", "c", "b", ⟨30, []⟩⟩)]

/-- An engine holding `statsStore` (no index needed for `getStats`). -/
def statsEngine : SearchEngine := ⟨none, statsStore, none⟩

/-! Store invariants and helper lemmas. -/

/-- The document-store invariant the external parser guarantees (spec
section 3): each key is its document's identifier and identifiers are
unique within a snapshot. -/
def DocsOk (docs : List (String × ParsedDocument)) : Prop :=
  (∀ p ∈ docs, p.1 = p.2.id) ∧ (docs.map Prod.fst).Nodup

instance (docs : List (String × ParsedDocument)) : Decidable (DocsOk docs) :=
  inferInstanceAs
    (Decidable ((∀ p ∈ docs, p.1 = p.2.id) ∧ (docs.map Prod.fst).Nodup))

/-- An engine whose index was successfully built from its current
document store. -/
def WellFormed (e : SearchEngine) : Prop :=
  e.index = some (lunrBuild (getAllDocuments e)) ∧ DocsOk e.docs

instance (e : SearchEngine) : Decidable (WellFormed e) :=
  inferInstanceAs
    (Decidable (e.index = some (lunrBuild (getAllDocuments e)) ∧ DocsOk e.docs))

/-- In a store satisfying `DocsOk`, every stored document is found under
its own identifier. -/
theorem docsGet_of_mem {docs : List (String × ParsedDocument)} (hok : DocsOk docs)
    {d : ParsedDocument} (hd : d ∈ docs.map Prod.snd) :
    docsGet docs d.id = some d := by
  induction docs with
  | nil => simp at hd
  | cons p rest ih =>
      obtain ⟨hids, hnodup⟩ := hok
      obtain ⟨k, d0⟩ := p
      have hk : k = d0.id := hids (k, d0) (List.mem_cons_self _ _)
      have hnodup2 : (∀ x : ParsedDocument, (k, x) ∉ rest) ∧
          (rest.map Prod.fst).Nodup := by simpa using hnodup
      simp only [List.map_cons, List.mem_cons] at hd
      rcases hd with hd | hd
      · subst hd
        simp [docsGet, hk]
      · have hok2 : DocsOk rest :=
          ⟨fun q hq => hids q (List.mem_cons_of_mem _ hq), hnodup2.2⟩
        have hne : ¬ k = d.id := by
          intro hkd
          obtain ⟨q, hq, hq2⟩ := List.mem_map.mp hd
          obtain ⟨q1, q2⟩ := q
          have hq1 : q1 = d.id := by
            have hqi := hids (q1, q2) (List.mem_cons_of_mem _ hq)
            simp only at hq2
            simpa [hq2] using hqi
          refine hnodup2.1 d ?_
          have hq1k : q1 = k := by rw [hq1, ← hkd]
          simp only at hq2
          rw [← hq1k, ← hq2]
          exact hq
        simp [docsGet, hne, ih hok2 hd]

/-- Every lunr search result is the entry of some indexed document with
a positive score. -/
theorem mem_lunrSearch {idx : List IndexedDoc} {q : String} {r : LunrResult}
    (h : r ∈ lunrSearch idx q) :
    ∃ d ∈ idx, r = lunrEntry d q ∧ 0 < r.score := by
  have h2 := (List.perm_insertionSort scoreGe _).mem_iff.mp h
  obtain ⟨hr, hpos⟩ := List.mem_filter.mp h2
  obtain ⟨d, hd, hde⟩ := List.mem_map.mp hr
  exact ⟨d, hd, hde.symm, by simpa using hpos⟩

/-- In a well-formed engine, every lunr search result's reference
resolves in the document store. -/
theorem resolves_of_wellFormed {e : SearchEngine} (hwf : WellFormed e)
    {q : String} {r : LunrResult}
    (h : r ∈ lunrSearch (lunrBuild (getAllDocuments e)) q) :
    ∃ d, docsGet e.docs r.ref = some d := by
  obtain ⟨idoc, hidoc, hre, -⟩ := mem_lunrSearch h
  obtain ⟨d, hd, hde⟩ := List.mem_map.mp hidoc
  refine ⟨d, ?_⟩
  have : r.ref = d.id := by rw [hre, ← hde]; rfl
  rw [this]
  exact docsGet_of_mem hwf.2 hd

/-- `buildResults` succeeds when every reference resolves; it preserves
length and scores and stamps each result's `totalResults` with
`total`. -/
theorem buildResults_ok {docs : List (String × ParsedDocument)} {query : String}
    {filters : Option String} {total : Nat} {rs : List LunrResult}
    (h : ∀ r ∈ rs, ∃ d, docsGet docs r.ref = some d) :
    ∃ out, buildResults docs query filters total rs = Except.ok out ∧
      out.length = rs.length ∧
      (∀ x ∈ out, x.metadata.totalResults = total) ∧
      out.map (fun x => x.score) = rs.map (fun r => r.score) := by
  induction rs with
  | nil => exact ⟨[], rfl, rfl, by simp, rfl⟩
  | cons r rest ih =>
      obtain ⟨d, hd⟩ := h r (List.mem_cons_self _ _)
      obtain ⟨out, hout, hlen, htot, hsc⟩ :=
        ih (fun r2 hr2 => h r2 (List.mem_cons_of_mem _ hr2))
      refine ⟨⟨d, r.score, generateSnippet d.content query,
        extractHighlights r query, ⟨query, 0, total, filters⟩⟩ :: out, ?_, ?_, ?_, ?_⟩
      · simp only [buildResults, hd, hout]
      · simp [hlen]
      · intro x hx
        rcases List.mem_cons.mp hx with hx | hx
        · rw [hx]
        · exact htot x hx
      · simp [hsc]

/-- The section filter only drops entries. -/
theorem sectionFiltered_subset (e : SearchEngine) (l : List LunrResult)
    (opts : SearchOptions) : ∀ r ∈ sectionFiltered e l opts, r ∈ l := by
  intro r hr
  unfold sectionFiltered at hr
  split at hr
  · split at hr
    · exact hr
    · exact List.mem_of_mem_filter hr
  · exact hr

/-- The section and minimum-score filters only drop entries. -/
theorem filteredResults_subset (e : SearchEngine) (idx : List IndexedDoc)
    (query : String) (opts : SearchOptions) :
    ∀ r ∈ filteredResults e idx query opts, r ∈ lunrSearch idx query :=
  fun r hr =>
    sectionFiltered_subset e (lunrSearch idx query) opts r
      (List.mem_of_mem_filter hr)

/-- `slice(0, n)` only drops entries. -/
theorem jsSliceTo_subset {α : Type} (l : List α) (n : Int) : jsSliceTo l n ⊆ l := by
  unfold jsSliceTo
  split
  · exact List.take_subset _ _
  · exact List.take_subset _ _

/-- The lunr result list is sorted by descending score. -/
theorem lunrSearch_sorted (idx : List IndexedDoc) (query : String) :
    List.Pairwise scoreGe (lunrSearch idx query) :=
  List.sorted_insertionSort scoreGe _

/-- Filtering preserves the descending-score order. -/
theorem filteredResults_sorted (e : SearchEngine) (idx : List IndexedDoc)
    (query : String) (opts : SearchOptions) :
    List.Pairwise scoreGe (filteredResults e idx query opts) := by
  apply List.Pairwise.filter
  have hs := lunrSearch_sorted idx query
  unfold sectionFiltered
  rcases opts.sectionFilter with _ | s
  · exact hs
  · by_cases hse : s = ""
    · simp only [if_pos hse]
      exact hs
    · simp only [if_neg hse]
      exact List.Pairwise.filter _ hs

/-- The word-count fold of `getStats` is the sum of the word counts. -/
theorem foldl_wordCount (l : List ParsedDocument) (n : Nat) :
    l.foldl (fun sum d => sum + d.metadata.wordCount) n =
      n + (l.map (fun d => d.metadata.wordCount)).sum := by
  induction l generalizing n with
  | nil => simp
  | cons d rest ih => simp [ih, Nat.add_assoc]

/-- `search` on an engine with a built index, unfolded. -/
theorem search_eq_of_index {e : SearchEngine} {idx : List IndexedDoc}
    (h : e.index = some idx) (query : String) (opts : SearchOptions) :
    search e query opts =
      buildResults e.docs query
        (match opts.sectionFilter with
          | some s => if s = "" then none else some s
          | none => none)
        (jsSliceTo (filteredResults e idx query opts) (effectiveLimit opts.limit)).length
        (jsSliceTo (filteredResults e idx query opts) (effectiveLimit opts.limit)) := by
  unfold search
  rw [h]

/-! Claim theorems. -/

/-- C1: on a built (well-formed) index, `search` returns an ok result
sequence (possibly empty) for every query string — empty and nonsense
queries included; no input string is rejected as untokenizable with a
malformed-query error. -/
theorem c1_search_never_rejects (e : SearchEngine) (query : String)
    (opts : SearchOptions) (hwf : WellFormed e) :
    ∃ rs, search e query opts = Except.ok rs := by
  have hresolve : ∀ r ∈ jsSliceTo
      (filteredResults e (lunrBuild (getAllDocuments e)) query opts)
      (effectiveLimit opts.limit), ∃ d, docsGet e.docs r.ref = some d := by
    intro r hr
    exact resolves_of_wellFormed hwf
      (filteredResults_subset _ _ _ _ r (jsSliceTo_subset _ _ hr))
  obtain ⟨out, hout, -, -, -⟩ := buildResults_ok hresolve
  exact ⟨out, by rw [search_eq_of_index hwf.1 query opts]; exact hout⟩

/-- Witness for C1: the empty query and a nonsense query both return ok
result sequences on the built sample engine. -/
theorem c1_search_never_rejects_witness :
    (∃ rs, search sampleEngine "" ⟨none, none⟩ = Except.ok rs) ∧
    (∃ rs, search sampleEngine "@@@ ???" ⟨some 2, some "g-codes"⟩ = Except.ok rs) :=
  ⟨c1_search_never_rejects sampleEngine "" ⟨none, none⟩ (by decide),
   c1_search_never_rejects sampleEngine "@@@ ???" ⟨some 2, some "g-codes"⟩ (by decide)⟩

/-- C2 counterexample: on the sample engine, the query "alpha" with
`limit: 1` leaves three candidates after the section and minimum-score
filters, yet the single returned result carries
`metadata.totalResults = 1` — the post-truncation length — and not 3,
the count of all matches surviving the filters that the claim
requires. -/
theorem c2_totalResults_not_filtered_count :
    Except.map (fun rs => rs.map (fun x => x.metadata.totalResults))
        (search sampleEngine "alpha" ⟨some 1, none⟩) = Except.ok [1] ∧
    (filteredResults sampleEngine (lunrBuild (getAllDocuments sampleEngine))
        "alpha" ⟨some 1, none⟩).length = 3 ∧
    sampleEngine.index = some (lunrBuild (getAllDocuments sampleEngine)) ∧
    (1 : Nat) ≠ 3 :=
  ⟨by decide, by decide, by decide, by decide⟩

/-- C2 (amended): `totalResults` equals the number of candidates
remaining after the section filter, the minimum-score filter and the
truncation to the limit — that is, the length of the returned result
sequence itself; the fixed, documented semantics is post-truncation. -/
theorem c2_totalResults_is_returned_count (e : SearchEngine) (query : String)
    (opts : SearchOptions) (hwf : WellFormed e) :
    ∃ rs, search e query opts = Except.ok rs ∧
      ∀ x ∈ rs, x.metadata.totalResults = rs.length := by
  have hresolve : ∀ r ∈ jsSliceTo
      (filteredResults e (lunrBuild (getAllDocuments e)) query opts)
      (effectiveLimit opts.limit), ∃ d, docsGet e.docs r.ref = some d := by
    intro r hr
    exact resolves_of_wellFormed hwf
      (filteredResults_subset _ _ _ _ r (jsSliceTo_subset _ _ hr))
  obtain ⟨out, hout, hlen, htot, -⟩ := buildResults_ok hresolve
  refine ⟨out, by rw [search_eq_of_index hwf.1 query opts]; exact hout, ?_⟩
  intro x hx
  rw [htot x hx, hlen]

/-- Witness for C2 (amended) at the sample engine with a binding limit. -/
theorem c2_totalResults_is_returned_count_witness :
    ∃ rs, search sampleEngine "alpha" ⟨some 1, none⟩ = Except.ok rs ∧
      ∀ x ∈ rs, x.metadata.totalResults = rs.length :=
  c2_totalResults_is_returned_count sampleEngine "alpha" ⟨some 1, none⟩ (by decide)

/-- C3: an internal fault during index construction leaves the prior
index handle and build timestamp in effect (the engine is exactly as
ready as before), and the build call propagates the error produced by
`handleError`, whose message preserves the triggering cause; a thrown
`KlipperError` is passed through unchanged, not swallowed. -/
theorem c3_buildIndex_fault_preserves_index (e : SearchEngine)
    (documents : List (String × ParsedDocument)) (now : Nat) (err : JsError) :
    (buildIndex e documents now (some err)).1.index = e.index ∧
    (buildIndex e documents now (some err)).1.lastIndexed = e.lastIndexed ∧
    isReady (buildIndex e documents now (some err)).1 = isReady e ∧
    (buildIndex e documents now (some err)).2 =
      Except.error (handleError err "SearchEngine.buildIndex") ∧
    (handleError err "SearchEngine.buildIndex").message = err.causeMessage ∧
    (∀ ke, handleError (JsError.klipper ke) "SearchEngine.buildIndex" = ke) := by
  refine ⟨rfl, rfl, rfl, rfl, ?_, fun ke => rfl⟩
  cases err <;> rfl

/-- C4: for every query and options, calling `search` before any
successful `buildIndex` (the index handle is still null) fails with the
not-initialized `SearchError` — the `IndexNotReady` condition, of error
type `SEARCH` — and never returns a result sequence. -/
theorem c4_search_requires_built_index (e : SearchEngine) (query : String)
    (opts : SearchOptions) (h : e.index = none) :
    search e query opts =
      Except.error
        (SearchError "Search index not initialized" "SearchEngine.search") ∧
    (SearchError "Search index not initialized" "SearchEngine.search").etype =
      ErrorType.SEARCH ∧
    ∀ rs, search e query opts ≠ Except.ok rs := by
  have h1 : search e query opts =
      Except.error
        (SearchError "Search index not initialized" "SearchEngine.search") := by
    unfold search
    rw [h]
  refine ⟨h1, rfl, ?_⟩
  intro rs hrs
  rw [h1] at hrs
  exact Except.noConfusion hrs

/-- Witness for C4 at the freshly constructed engine. -/
theorem c4_search_requires_built_index_witness :
    search SearchEngine.mkNew "extruder" ⟨none, none⟩ =
      Except.error
        (SearchError "Search index not initialized" "SearchEngine.search") :=
  (c4_search_requires_built_index SearchEngine.mkNew "extruder" ⟨none, none⟩ rfl).1

/-- C9: `buildIndex` assigns the new document store before attempting
the build, so after a failed build every document accessor
(`getDocument`, `getAllDocuments`, `getDocumentsBySection`,
`getSections`, `getStats`) reflects the new documents while the prior
index handle is still the one in effect. -/
theorem c9_fault_swaps_store_keeps_index (e : SearchEngine)
    (documents : List (String × ParsedDocument)) (now : Nat) (err : JsError)
    (id s : String) (now2 : Nat) :
    (buildIndex e documents now (some err)).1.docs = documents ∧
    (buildIndex e documents now (some err)).1.index = e.index ∧
    getDocument (buildIndex e documents now (some err)).1 id =
      docsGet documents id ∧
    getAllDocuments (buildIndex e documents now (some err)).1 =
      documents.map Prod.snd ∧
    getDocumentsBySection (buildIndex e documents now (some err)).1 s =
      (documents.map Prod.snd).filter (fun d => d.sectionName == s) ∧
    getSections (buildIndex e documents now (some err)).1 =
      List.insertionSort strLe
        (((documents.map Prod.snd).map (fun d => d.sectionName)).dedup) ∧
    (getStats (buildIndex e documents now (some err)).1 now2).totalDocuments =
      documents.length ∧
    (getStats (buildIndex e documents now (some err)).1 now2).totalWords =
      ((documents.map Prod.snd).map (fun d => d.metadata.wordCount)).sum := by
  refine ⟨rfl, rfl, rfl, rfl, rfl, rfl, ?_, ?_⟩
  · simp [getStats, getAllDocuments, buildIndex]
  · simp [getStats, getAllDocuments, buildIndex, foldl_wordCount]

/-- C10: a limit of 0 is falsy in JS, so `options.limit || maxResults`
falls back to the configured default 10: a search with `limit: 0`
behaves exactly like a search with no limit, and on the built sample
engine it returns three results — not zero. -/
theorem c10_limit_zero_falls_back :
    (∀ (e : SearchEngine) (query : String) (sec : Option String),
        search e query ⟨some 0, sec⟩ = search e query ⟨none, sec⟩) ∧
    effectiveLimit (some 0) = (maxResults : Int) ∧
    maxResults = 10 ∧
    Except.map (fun rs => rs.length) (search sampleEngine "alpha" ⟨some 0, none⟩) =
      Except.ok 3 :=
  ⟨fun _ _ _ => rfl, rfl, rfl, by decide⟩

/-- C8: `getStats` returns the document count, the summed word counts,
and the distinct section names in ascending JS string order; on the
three-document store with word counts 10, 20, 30 and sections a, a, b
it returns totalDocuments 3, totalWords 60 and sections [a, b], and on
the empty store it returns zeros and the empty sequence without
failing. -/
theorem c8_getStats_counts_and_sections :
    (∀ (e : SearchEngine) (now : Nat),
      (getStats e now).totalDocuments = (getAllDocuments e).length ∧
      (getStats e now).totalWords =
        ((getAllDocuments e).map (fun d => d.metadata.wordCount)).sum ∧
      (getStats e now).sections.Pairwise strLe ∧
      (getStats e now).sections.Nodup ∧
      (∀ s, s ∈ (getStats e now).sections ↔
        ∃ d ∈ getAllDocuments e, d.sectionName = s)) ∧
    getStats statsEngine 0 = ⟨3, 60, 0, ["a", "b"]⟩ ∧
    getStats ⟨none, [], none⟩ 0 = ⟨0, 0, 0, []⟩ := by
  refine ⟨fun e now => ⟨rfl, ?_, ?_, ?_, ?_⟩, by decide, by decide⟩
  · simp [getStats, foldl_wordCount]
  · exact List.sorted_insertionSort strLe _
  · exact (List.perm_insertionSort strLe _).nodup_iff.mpr (List.nodup_dedup _)
  · intro s
    rw [show (getStats e now).sections = getSections e from rfl]
    unfold getSections
    rw [(List.perm_insertionSort strLe _).mem_iff, List.mem_dedup, List.mem_map]

/-- C7: with a positive limit N, `search` returns at most N results;
the returned scores are exactly the scores of the first N entries of
the filtered ranking, that ranking is sorted by descending score, and
every returned score dominates every score truncated away — the N
highest-scoring survivors are the ones returned. -/
theorem c7_limit_returns_top_n (e : SearchEngine) (query : String)
    (sec : Option String) (N : Nat) (hN : 0 < N) (hwf : WellFormed e) :
    ∃ rs, search e query ⟨some (N : Int), sec⟩ = Except.ok rs ∧
      rs.length ≤ N ∧
      rs.map (fun x => x.score) =
        ((filteredResults e (lunrBuild (getAllDocuments e)) query
          ⟨some (N : Int), sec⟩).take N).map (fun r => r.score) ∧
      List.Pairwise scoreGe
        (filteredResults e (lunrBuild (getAllDocuments e)) query
          ⟨some (N : Int), sec⟩) ∧
      ∀ x ∈ rs, ∀ r2 ∈ (filteredResults e (lunrBuild (getAllDocuments e)) query
          ⟨some (N : Int), sec⟩).drop N, r2.score ≤ x.score := by
  have hNne : ¬ ((N : Int) = 0) := by
    simp only [Int.natCast_eq_zero]
    omega
  have hlim : effectiveLimit (some (N : Int)) = (N : Int) := by
    show (if (N : Int) = 0 then (maxResults : Int) else (N : Int)) = (N : Int)
    rw [if_neg hNne]
  have hslice : jsSliceTo (filteredResults e (lunrBuild (getAllDocuments e)) query
      ⟨some (N : Int), sec⟩) (effectiveLimit (some (N : Int))) =
      (filteredResults e (lunrBuild (getAllDocuments e)) query
        ⟨some (N : Int), sec⟩).take N := by
    rw [hlim]
    unfold jsSliceTo
    rw [if_pos (Int.natCast_nonneg N), Int.toNat_natCast]
  have hresolve : ∀ r ∈ (filteredResults e (lunrBuild (getAllDocuments e)) query
      ⟨some (N : Int), sec⟩).take N, ∃ d, docsGet e.docs r.ref = some d := by
    intro r hr
    exact resolves_of_wellFormed hwf
      (filteredResults_subset _ _ _ _ r (List.take_subset _ _ hr))
  obtain ⟨out, hout, hlen, -, hsc⟩ := buildResults_ok hresolve
  have hsorted := filteredResults_sorted e (lunrBuild (getAllDocuments e)) query
    (⟨some (N : Int), sec⟩ : SearchOptions)
  refine ⟨out, ?_, ?_, hsc, hsorted, ?_⟩
  · rw [search_eq_of_index hwf.1 query ⟨some (N : Int), sec⟩,
      show (SearchOptions.mk (some (N : Int)) sec).limit = some (N : Int) from rfl,
      hslice]
    exact hout
  · rw [hlen, List.length_take]
    exact min_le_left _ _
  · intro x hx r2 hr2
    have hxs : x.score ∈ ((filteredResults e (lunrBuild (getAllDocuments e)) query
        ⟨some (N : Int), sec⟩).take N).map (fun r => r.score) := by
      rw [← hsc]
      exact List.mem_map_of_mem _ hx
    obtain ⟨y, hy, hys⟩ := List.mem_map.mp hxs
    have hpw : List.Pairwise scoreGe
        ((filteredResults e (lunrBuild (getAllDocuments e)) query
          ⟨some (N : Int), sec⟩).take N ++
         (filteredResults e (lunrBuild (getAllDocuments e)) query
          ⟨some (N : Int), sec⟩).drop N) := by
      rw [List.take_append_drop]
      exact hsorted
    have hge : scoreGe y r2 := (List.pairwise_append.mp hpw).2.2 y hy r2 hr2
    rw [← hys]
    exact hge

/-- Witness for C7 on the sample engine with N = 2 (three candidates
survive filtering). -/
theorem c7_limit_returns_top_n_witness :
    ∃ rs, search sampleEngine "alpha" ⟨some ((2 : Nat) : Int), none⟩ = Except.ok rs ∧
      rs.length ≤ 2 ∧
      rs.map (fun x => x.score) =
        ((filteredResults sampleEngine (lunrBuild (getAllDocuments sampleEngine))
          "alpha" ⟨some ((2 : Nat) : Int), none⟩).take 2).map (fun r => r.score) ∧
      List.Pairwise scoreGe
        (filteredResults sampleEngine (lunrBuild (getAllDocuments sampleEngine))
          "alpha" ⟨some ((2 : Nat) : Int), none⟩) ∧
      ∀ x ∈ rs, ∀ r2 ∈ (filteredResults sampleEngine
          (lunrBuild (getAllDocuments sampleEngine)) "alpha"
          ⟨some ((2 : Nat) : Int), none⟩).drop 2, r2.score ≤ x.score :=
  c7_limit_returns_top_n sampleEngine "alpha" none 2 (by decide) (by decide)

/-- C6: field weighting — a token occurring only in a document's title
with term frequency t gives that document score 10·t, strictly greater
than the score t the same document receives for a token occurring only
in its body with equal term frequency (weights 10/5/3/1 for
title/section/tags/body as score multipliers); the title query also
surfaces the document in the lunr result list with that score. -/
theorem c6_title_weight_beats_body
    (vals : List ParsedDocument) (d : ParsedDocument)
    (qA qB tA tB : String) (t : Nat)
    (hnodup : (vals.map (fun d2 => d2.id)).Nodup)
    (hd : d ∈ vals)
    (hqa : tokenize qA = [tA])
    (hqb : tokenize qB = [tB])
    (ht : 0 < t)
    (hA1 : (tokenize d.title).count tA = t)
    (hA2 : (tokenize d.content).count tA = 0)
    (hA3 : (tokenize d.sectionName).count tA = 0)
    (hA4 : (tokenize (String.intercalate " " d.metadata.tags)).count tA = 0)
    (hB1 : (tokenize d.content).count tB = t)
    (hB2 : (tokenize d.title).count tB = 0)
    (hB3 : (tokenize d.sectionName).count tB = 0)
    (hB4 : (tokenize (String.intercalate " " d.metadata.tags)).count tB = 0) :
    docScore (indexDoc d) qA = 10 * t ∧
    docScore (indexDoc d) qB = t ∧
    t < 10 * t ∧
    (∃ r ∈ lunrSearch (lunrBuild vals) qA, r.ref = d.id ∧ r.score = 10 * t) ∧
    (∀ r ∈ lunrSearch (lunrBuild vals) qB, r.ref = d.id → r.score = t) := by
  have hsA : docScore (indexDoc d) qA = 10 * t := by
    simp [docScore, hqa, termScore, indexDoc, hA1, hA2, hA3, hA4]
  have hsB : docScore (indexDoc d) qB = t := by
    simp [docScore, hqb, termScore, indexDoc, hB1, hB2, hB3, hB4]
  refine ⟨hsA, hsB, by omega, ?_, ?_⟩
  · refine ⟨lunrEntry (indexDoc d) qA, ?_, rfl, ?_⟩
    · refine (List.perm_insertionSort scoreGe _).mem_iff.mpr ?_
      refine List.mem_filter.mpr
        ⟨List.mem_map_of_mem _ (List.mem_map_of_mem indexDoc hd), ?_⟩
      simp only [lunrEntry, hsA, decide_eq_true_eq]
      omega
    · exact hsA
  · intro r hr hrref
    obtain ⟨idoc, hidoc, hre, -⟩ := mem_lunrSearch hr
    obtain ⟨d2, hd2, hde⟩ := List.mem_map.mp hidoc
    have hid : d2.id = d.id := by
      have hrd2 : r.ref = d2.id := by rw [hre, ← hde]; rfl
      rw [← hrd2, hrref]
    have hd2d : d2 = d := List.inj_on_of_nodup_map hnodup hd2 hd hid
    rw [hre, ← hde, hd2d]
    exact hsB

/-- Witness for C6: "extruder" occurs once only in the title of
`docExtruder` and "rotation" once only in its body. -/
theorem c6_title_weight_beats_body_witness :
    docScore (indexDoc docExtruder) "extruder" = 10 * 1 ∧
    docScore (indexDoc docExtruder) "rotation" = 1 ∧
    1 < 10 * 1 ∧
    (∃ r ∈ lunrSearch (lunrBuild [docExtruder, docBedMesh, docGcodes]) "extruder",
      r.ref = docExtruder.id ∧ r.score = 10 * 1) ∧
    (∀ r ∈ lunrSearch (lunrBuild [docExtruder, docBedMesh, docGcodes]) "rotation",
      r.ref = docExtruder.id → r.score = 1) :=
  c6_title_weight_beats_body [docExtruder, docBedMesh, docGcodes] docExtruder
    "extruder" "rotation" "extruder" "rotation" 1 (by decide)
    (by decide) (by decide) (by decide) (by decide) (by decide) (by decide)
    (by decide) (by decide) (by decide) (by decide) (by decide) (by decide)

/-! Lemmas about the extractor pattern 1. -/

/-- Matching a variant against text that begins with it verbatim always
succeeds. -/
theorem matchCI_self : ∀ (v t : List Char), matchCI v (v ++ t) = some (v, t)
  | [], _ => rfl
  | c :: vs, t => by
      show matchCI (c :: vs) (c :: (vs ++ t)) = some (c :: vs, t)
      unfold matchCI
      rw [if_pos rfl, matchCI_self vs t]

/-- `takeWhile`/`dropWhile` on a run of satisfying characters followed
by a failing one. -/
theorem takeWhile_append_cons {p : Char → Bool} {l : List Char}
    (hl : ∀ a ∈ l, p a = true) {c : Char} (hc : p c = false) (t : List Char) :
    (l ++ c :: t).takeWhile p = l ∧ (l ++ c :: t).dropWhile p = c :: t := by
  induction l with
  | nil => simp [List.takeWhile_cons, List.dropWhile_cons, hc]
  | cons a l2 ih =>
      have ha : p a = true := hl a (List.mem_cons_self _ _)
      obtain ⟨h1, h2⟩ := ih (fun b hb => hl b (List.mem_cons_of_mem _ hb))
      simp [List.takeWhile_cons, List.dropWhile_cons, ha, h1, h2]

/-- Pattern 1's header regex matched at a structured marker line
`### [option…]…\n`. -/
theorem headerMatchAt_marker (opt label2 lineRest rest : List Char)
    (hlabel2 : ∀ c ∈ label2, (c != ']') = true)
    (hline : ∀ c ∈ lineRest, (c != '\n') = true) :
    headerMatchAt opt
      ('#' :: '#' :: '#' :: ' ' :: '[' ::
        (opt ++ label2 ++ ']' :: (lineRest ++ '\n' :: rest))) =
      some ('#' :: '#' :: '#' :: ' ' :: '[' ::
        (opt ++ label2 ++ ']' :: (lineRest ++ ['\n'])), rest) := by
  have hws1 : charWs ' ' = true := rfl
  have hws2 : charWs '[' = false := rfl
  have hmc : matchCI opt (opt ++ (label2 ++ ']' :: (lineRest ++ '\n' :: rest))) =
      some (opt, label2 ++ ']' :: (lineRest ++ '\n' :: rest)) := matchCI_self _ _
  obtain ⟨htw1, hdw1⟩ := takeWhile_append_cons hlabel2 (show (']' != ']') = false from rfl)
    (lineRest ++ '\n' :: rest)
  obtain ⟨htw2, hdw2⟩ := takeWhile_append_cons hline (show ('\n' != '\n') = false from rfl)
    rest
  rw [show (opt ++ label2 ++ ']' :: (lineRest ++ '\n' :: rest)) =
      opt ++ (label2 ++ ']' :: (lineRest ++ '\n' :: rest)) from by
    simp [List.append_assoc]]
  unfold headerMatchAt
  simp only [List.takeWhile_cons, List.dropWhile_cons, hws1, hws2,
    Bool.false_eq_true, if_true, if_false, List.takeWhile_nil, List.dropWhile_nil]
  rw [hmc]
  simp only [htw1, hdw1, htw2, hdw2]
  simp [List.append_assoc]

/-- `headerMatchAt` at a successful position determines `findHeader`. -/
theorem findHeader_of_headerMatchAt {v l : List Char}
    {res : List Char × List Char} (h : headerMatchAt v l = some res) :
    findHeader v l = some res := by
  cases l with
  | nil => simp [headerMatchAt] at h
  | cons c cs => simp [findHeader, h]

/-- Leftmost search: if the header pattern fails at every position
inside `pre` and matches at the start of `rest`, the scan of
`pre ++ rest` returns that match. -/
theorem findHeader_append {v pre rest : List Char} {res : List Char × List Char}
    (hpre : ∀ i < pre.length, headerMatchAt v (pre.drop i ++ rest) = none)
    (hres : headerMatchAt v rest = some res) :
    findHeader v (pre ++ rest) = some res := by
  induction pre with
  | nil => simpa using findHeader_of_headerMatchAt hres
  | cons c pre2 ih =>
      have h0 : headerMatchAt v (c :: (pre2 ++ rest)) = none := by
        have h1 := hpre 0 (by simp)
        simpa using h1
      show findHeader v (c :: (pre2 ++ rest)) = some res
      unfold findHeader
      rw [h0]
      exact ih (fun i hi => by
        have h2 := hpre (i + 1) (by simpa using Nat.succ_lt_succ hi)
        simpa using h2)

/-- The lazy body stops immediately when the lookahead holds. -/
theorem takeUntilP1_of_stop {l : List Char} (h : p1Stop l = true) :
    takeUntilP1 l = [] := by
  cases l with
  | nil => rfl
  | cons c cs => simp [takeUntilP1, h]

/-- The lazy body takes exactly `body` when no proper suffix position of
`body` satisfies the lookahead and `rest` does. -/
theorem takeUntilP1_append {body rest : List Char}
    (hbody : ∀ k < body.length, p1Stop (body.drop k ++ rest) = false)
    (hrest : p1Stop rest = true) :
    takeUntilP1 (body ++ rest) = body := by
  induction body with
  | nil => simpa using takeUntilP1_of_stop hrest
  | cons c body2 ih =>
      have h0 : p1Stop (c :: (body2 ++ rest)) = false := by
        have h1 := hbody 0 (by simp)
        simpa using h1
      show takeUntilP1 (c :: (body2 ++ rest)) = c :: body2
      unfold takeUntilP1
      rw [h0]
      simp only [Bool.false_eq_true, if_false]
      rw [ih (fun k hk => by
        have h2 := hbody (k + 1) (by simpa using Nat.succ_lt_succ hk)
        simpa using h2)]

/-- C5: when the document text consists of a prefix with no
heading-style marker for the option, a marker line
`### [option…]…\n`, a nonempty body with no same-or-higher-level
heading marker inside, and a remainder that begins with the next
same-or-higher-level heading marker (or is the end of the document),
`extractConfigSection` returns exactly the text from the marker line up
to — and excluding — that next heading marker. -/
theorem c5_extract_returns_marker_block
    (opt pre label2 lineRest body rest : List Char)
    (hpre : ∀ i < pre.length, headerMatchAt opt (pre.drop i ++
      ('#' :: '#' :: '#' :: ' ' :: '[' ::
        (opt ++ label2 ++ ']' :: (lineRest ++ '\n' :: (body ++ rest))))) = none)
    (hlabel2 : ∀ c ∈ label2, (c != ']') = true)
    (hline : ∀ c ∈ lineRest, (c != '\n') = true)
    (hbody : body ≠ [])
    (hstops : ∀ k < body.length, p1Stop (body.drop k ++ rest) = false)
    (hrest : p1Stop rest = true) :
    extractCore
      (pre ++ ('#' :: '#' :: '#' :: ' ' :: '[' ::
        (opt ++ label2 ++ ']' :: (lineRest ++ '\n' :: (body ++ rest))))) opt =
    some ('#' :: '#' :: '#' :: ' ' :: '[' ::
      (opt ++ label2 ++ ']' :: (lineRest ++ '\n' :: body))) := by
  have hmk := headerMatchAt_marker opt label2 lineRest (body ++ rest) hlabel2 hline
  have hfind := findHeader_append hpre hmk
  have htake := takeUntilP1_append hstops hrest
  have hp1 : tryPattern1 opt
      (pre ++ ('#' :: '#' :: '#' :: ' ' :: '[' ::
        (opt ++ label2 ++ ']' :: (lineRest ++ '\n' :: (body ++ rest))))) =
      some ('#' :: '#' :: '#' :: ' ' :: '[' ::
        (opt ++ label2 ++ ']' :: (lineRest ++ '\n' :: body))) := by
    unfold tryPattern1
    rw [hfind]
    simp only [htake, if_neg hbody]
    simp [List.append_assoc]
  unfold extractCore optionVariants
  simp only [List.foldl_cons, List.foldl_nil, hp1]

/-- Witness for C5: the concrete markdown from the claim — requesting
"bed_mesh" in a text holding a `### [bed_mesh]` marker followed by a
`### [extruder]` marker returns exactly the bed_mesh block. -/
theorem c5_extract_returns_marker_block_witness :
    extractConfigSection "### [bed_mesh]\nfoo\n### [extruder]\nbar" "bed_mesh" =
      some "### [bed_mesh]\nfoo" := by
  have h := c5_extract_returns_marker_block ("bed_mesh".data) [] [] []
    ("foo".data) ("\n### [extruder]\nbar".data)
    (by decide) (by decide) (by decide) (by decide) (by decide) (by decide)
  unfold extractConfigSection
  rw [show ("### [bed_mesh]\nfoo\n### [extruder]\nbar".data : List Char) =
      [] ++ ('#' :: '#' :: '#' :: ' ' :: '[' ::
        ("bed_mesh".data ++ [] ++ ']' ::
          ([] ++ '\n' :: ("foo".data ++ "\n### [extruder]\nbar".data)))) from by decide]
  rw [h]
  decide

end Klipper
